import Mathlib

/-!
# Verification of the qbs reversible schema-migration engine

A shallow embedding, in Lean, of the migration driver of the `qbs` package:
the `Schema` scratchpad with its `prev`/`curr` registries, the record
introspector `structPair`, the logical-name check `checkLogicalName`, the
column-name trap `trapColumnsForSqlite3`/`untrapColumnsForSqlite3`, the
rename/shadow protocol (`renameCurrentTablesAddColumns` and
`removeOldRenameColumns`), the data-phase operations `FindAll` and `Save`,
and the transactional driver `Schema.Run`, together with the `Migration`
handle operations (`Begin`, `Rollback`, `Commit`, `Close`, `CreateTable`,
`DropTable`, `RenameTable`) it drives.

The SQL database and the reflection-driven mapper are external
collaborators: each call into them is modelled by consulting an oracle
schedule (`DbRes`) that decides whether the call succeeds, returns an
error, or fails hard, and every call is recorded in a trace of operations
(`Op`) so that theorems can speak about which DDL/DML the engine issued.
User-supplied migration steps (the `ReversibleMigration` values) are
modelled as programs in two small free-monad-like languages (`UStruct` for
the structure phase, `UData` for the data phase) whose interpreters call
the embedded schema operations exactly as user Go code would.

Go panics are modelled by the `Res.panicked` result constructor and the
`recover`-based handler deferred in `Schema.Run` is modelled explicitly.
Machine integers do not overflow in any modelled path, so `Nat`/`Int` are
used directly.
-/

/-! ## Go reflection values (just deep enough for `structPair`) -/

/-- The reflect-level type of a Go value, restricted to the kinds
`structPair` discriminates: struct, pointer, slice, and a representative
other kind (`tInt`). A struct type carries its unqualified name and its
field names in declaration order. -/
inductive GoTy where
  | tInt : GoTy
  | tStruct (name : String) (fields : List String) : GoTy
  | tPtr (t : GoTy) : GoTy
  | tSlice (t : GoTy) : GoTy
deriving Repr, DecidableEq

/-- A Go value. `vStruct` carries a `tag` identifying the instance
(`0` for a freshly allocated zero value); a slice carries its element
type (needed when it is empty) and its element values. `vNilPtr` is the
zero value of a pointer type. -/
inductive GoVal where
  | vInt : GoVal
  | vStruct (name : String) (fields : List String) (tag : Nat) : GoVal
  | vPtr (pointee : GoVal) : GoVal
  | vNilPtr (t : GoTy) : GoVal
  | vSlice (elemTy : GoTy) (elems : List GoVal) : GoVal
deriving Repr

/-- The zero value of a type, as produced by `reflect.New(t).Elem()`. -/
def zeroVal : GoTy → GoVal
  | GoTy.tInt => GoVal.vInt
  | GoTy.tStruct n fs => GoVal.vStruct n fs 0
  | GoTy.tPtr t => GoVal.vNilPtr t
  | GoTy.tSlice t => GoVal.vSlice t []

/-- Outcome of a piece of Go code that can only end by returning a value
or by panicking. -/
inductive PanicOr (α : Type) where
  | ok (a : α) : PanicOr α
  | panicked (msg : String) : PanicOr α
deriving Repr

/-- `nameStructPair`: an unqualified struct type name together with a live
pointer value of that shape. -/
structure NameStructPair where
  name : String
  typeRep : GoVal
deriving Repr

/-- Embedding of `structPair` (the record introspector): accepts a pointer
to a struct or a pointer to a slice of pointers to structs, returning the
struct's unqualified name and a prototype pointer; on an empty slice a
fresh zero value of the element type is allocated. All other inputs
panic, with the diagnostic the source uses at each check. -/
def structPair (i : GoVal) : PanicOr NameStructPair :=
  match i with
  | GoVal.vPtr pointee =>
    match pointee with
    | GoVal.vStruct n fs tag =>
        PanicOr.ok ⟨n, GoVal.vPtr (GoVal.vStruct n fs tag)⟩
    | GoVal.vSlice elemTy elems =>
        let afterIndex : GoVal → PanicOr NameStructPair := fun v =>
          match v with
          | GoVal.vPtr p2 =>
            match p2 with
            | GoVal.vStruct n2 fs2 tag2 =>
                PanicOr.ok ⟨n2, GoVal.vPtr (GoVal.vStruct n2 fs2 tag2)⟩
            | _ => PanicOr.panicked
                "expected a pointer to a slice of pointers to STRUCTS"
          | _ => PanicOr.panicked
                "expected a pointer to a slice of POINTERS to structs"
        match elems with
        | [] =>
          match elemTy with
          | GoTy.tPtr inner => afterIndex (GoVal.vPtr (zeroVal inner))
          | _ => PanicOr.panicked
                "expected a pointer to slice of POINTERS to structs"
        | e :: _ => afterIndex e
    | _ => PanicOr.panicked
        "expected a pointer to a SLICE of pointers to structs or pointer to STRUCT"
  | _ => PanicOr.panicked
      "expected a POINTER to a slice of pointers to structs or POINTER to struct"

/-- Split a character list at the first occurrence of the (non-empty)
separator: the part before it and the raw remainder after it. -/
def splitFirst (s sep : List Char) : Option (List Char × List Char) :=
  match s with
  | [] => none
  | c :: rest =>
    if sep.isPrefixOf s then some ([], s.drop sep.length)
    else
      match splitFirst rest sep with
      | none => none
      | some (pre, post) => some (c :: pre, post)

/-- `strings.SplitN(s, sep, 2)` for a non-empty separator (the source
only ever passes the literal `"_migration"`): at most two pieces, split
at the first occurrence of `sep`. -/
def splitN2 (s sep : String) : List String :=
  match splitFirst s.data sep.data with
  | none => [s]
  | some (pre, post) => [⟨pre⟩, ⟨post⟩]

/-- Decimal digit test, `'0' <= c && c <= '9'`. -/
def isDecDigit (c : Char) : Bool := '0' ≤ c && c ≤ '9'

/-- Numeric value of a digit string. -/
def digitsToNat (l : List Char) : Nat :=
  l.foldl (fun acc c => acc * 10 + (c.toNat - '0'.toNat)) 0

/-- Model of `strconv.ParseInt(s, 10, 64)` succeeding: an optional sign
followed by at least one decimal digit, with the value in `int64` range.
`ParseInt` itself is standard-library code outside the repository; this
models its documented success condition. -/
def parseInt64Ok (s : String) : Bool :=
  let (neg, body) :=
    match s.data with
    | '-' :: rest => (true, rest)
    | '+' :: rest => (false, rest)
    | l => (false, l)
  !body.isEmpty && body.all isDecDigit &&
    (if neg then digitsToNat body ≤ 2 ^ 63
     else digitsToNat body ≤ 2 ^ 63 - 1)

/-- Message of the Go runtime panic raised by indexing element 1 of a
one-element slice, as `checkLogicalName` does when the type name has no
`"_migration"` infix. -/
def indexOutOfRangeMsg : String := "runtime error: index out of range [1] with length 1"

/-- Embedding of `Schema.checkLogicalName`: introspect the record, split
its type name on the literal infix `"_migration"`, compare the left piece
with the logical name, then parse the right piece as a base-10 integer.
The access `pieces[1]` is modelled faithfully: when the split produced a
single piece it raises the runtime range panic rather than either
format diagnostic. -/
def checkLogicalName (logical : String) (i : GoVal) : PanicOr Unit :=
  match structPair i with
  | PanicOr.panicked m => PanicOr.panicked m
  | PanicOr.ok pair =>
    let pieces := splitN2 pair.name "_migration"
    if pieces.headD "" ≠ logical then
      PanicOr.panicked
        ("can't understand logical name " ++ logical ++ " with struct " ++ pair.name)
    else
      match pieces.get? 1 with
      | none => PanicOr.panicked indexOutOfRangeMsg
      | some p1 =>
        if parseInt64Ok p1 then PanicOr.ok ()
        else PanicOr.panicked
          ("can't understand migration number " ++ p1 ++ " in struct name " ++ pair.name)

/-- `fieldsWithSuffix`: the declared field names of the struct pointed to
by `structPtr` that end in `suffix`. Panics (as `reflect` would on
`NumField`) when the pointee is not a struct. -/
def fieldsWithSuffix (structPtr : GoVal) (suffix : String) : PanicOr (List String) :=
  match structPtr with
  | GoVal.vPtr (GoVal.vStruct _ fs _) =>
      PanicOr.ok (fs.filter (fun n => suffix.data.isSuffixOf n.data))
  | _ => PanicOr.panicked "reflect: NumField of non-struct type"

/-- `toSnake` on a list of characters; the flag is true at the first
character (`i > 0` is false), which suppresses the leading underscore. -/
def toSnakeAux : List Char → Bool → List Char
  | [], _ => []
  | c :: rest, isFirst =>
    if 'A' ≤ c && c ≤ 'Z' then
      (if isFirst then [] else ['_']) ++
        (Char.ofNat (c.toNat + 32) :: toSnakeAux rest false)
    else c :: toSnakeAux rest false

/-- Embedding of `toSnake`, the default `StructNameToTableName` /
`FieldNameToColumnName`: ASCII uppercase letters start a new snake
segment and are lowercased. The source iterates over bytes; every name in
the repository is ASCII, so iterating over characters is equivalent. -/
def toSnake (s : String) : String := ⟨toSnakeAux s.data true⟩

/-- `StructNameToTableName` as the migration driver sees it: the variant
of the engine under verification never rebinds it, so it is the default
`toSnake`. -/
def structNameToTableName (s : String) : String := toSnake s

/-! ## Name-mapping registry and the column-name trap -/

/-- A deep embedding of the values held by the process-wide mapping
function variables `FieldNameToColumnName` and `ColumnNameToFieldName`.
`base k` stands for an arbitrary pre-existing function value (the default
`toSnake`/`snakeToUpperCamel`, or whatever the embedding process
installed); `trapField`/`trapColumn` are the closures installed by
`trapColumnsForSqlite3`, each capturing the suffix and the previously
installed function. Equality of `MapF` values is equality of the Go
function values. -/
inductive MapF where
  | base (k : Nat) : MapF
  | trapField (suffix : String) (old : MapF) : MapF
  | trapColumn (suffix : String) (old : MapF) : MapF
deriving Repr, DecidableEq

/-- The two process-wide rebindable mapping variables the trap touches. -/
structure Globals where
  fieldNameToColumnName : MapF
  columnNameToFieldName : MapF
deriving Repr, DecidableEq

/-! ## Oracle for the SQL collaborator and operation traces -/

/-- Outcome the external SQL driver gives to one engine-issued call:
success, an error value returned to the engine, or a hard failure on a
path where the engine panics on the driver error. -/
inductive DbRes where
  | ok : DbRes
  | fail (msg : String) : DbRes
  | hardFail (msg : String) : DbRes
deriving Repr, DecidableEq

/-- One observable operation issued by the engine. Table names are
physical names. `trapOn`/`trapOff` record the trap windows. -/
inductive Op where
  | beginTx : Op
  | rollbackTx : Op
  | commitTx : Op
  | closeHandle : Op
  | renameTable (oldName newName : String) : Op
  | createTable (table : String) (omitted : List String) : Op
  | dropTable (table : String) : Op
  | findAllQuery (table : String) : Op
  | saveQuery (table : String) : Op
  | trapOn (suffix : String) : Op
  | trapOff : Op
deriving Repr, DecidableEq

/-- The full machine state: the `Schema` fields (`prev`/`curr` as
insertion-ordered association lists, the saved mapping snapshots), the
`Migration` handle fields (`tx` open, `self.m` nil after `Close`,
whether the dialect has column operations), the process globals, the
oracle schedule still to be consumed, and the trace of issued
operations. -/
structure St where
  prev : List (String × NameStructPair)
  curr : List (String × NameStructPair)
  oldFieldNameToColumnName : Option MapF
  oldColumnNameToFieldName : Option MapF
  txOpen : Bool
  mNil : Bool
  hasColOps : Bool
  glob : Globals
  env : List DbRes
  trace : List Op

/-- Result of running a piece of engine code: a normal return carrying a
value, or a Go panic carrying its message; both carry the state at the
moment control left the code. -/
inductive Res (α : Type) where
  | ok (a : α) (st : St) : Res α
  | panicked (msg : String) (st : St) : Res α

/-- Pop the next oracle outcome (an exhausted schedule answers `ok`). -/
def popEnv (st : St) : DbRes × St :=
  match st.env with
  | [] => (DbRes.ok, st)
  | r :: rest => (r, { st with env := rest })

/-- Append an operation to the trace. -/
def emit (op : Op) (st : St) : St := { st with trace := st.trace ++ [op] }

/-! ## `Migration` handle primitives (from `migration.go`) -/

/-- `Migration.Begin`: start the transaction, panicking if the driver
refuses (`db.Begin` error). Called through `self.m`, so a nil handle
panics first. -/
def migBegin (st : St) : Res Unit :=
  if st.mNil then Res.panicked "invalid memory address or nil pointer dereference" st
  else
    match popEnv st with
    | (DbRes.ok, st) => Res.ok () (emit Op.beginTx { st with txOpen := true })
    | (DbRes.fail m, st) => Res.panicked ("Unable to start transaction in migration : %s" ++ m) st
    | (DbRes.hardFail m, st) => Res.panicked ("Unable to start transaction in migration : %s" ++ m) st

/-- `Migration.Rollback`: panics when no transaction is in progress, and
panics when the driver's rollback itself errors; otherwise records the
rollback and clears the transaction. -/
def migRollback (st : St) : Res Unit :=
  if st.mNil then Res.panicked "invalid memory address or nil pointer dereference" st
  else if !st.txOpen then Res.panicked "no transaction in progress, cannot rollback!" st
  else
    match popEnv st with
    | (DbRes.ok, st) => Res.ok () (emit Op.rollbackTx { st with txOpen := false })
    | (DbRes.fail m, st) =>
        Res.panicked ("unable to rollback transaction in migration: " ++ m) st
    | (DbRes.hardFail m, st) =>
        Res.panicked ("unable to rollback transaction in migration: " ++ m) st

/-- `Migration.Commit`: panics when no transaction is in progress, and
panics when the driver's commit errors; otherwise records the commit and
clears the transaction. -/
def migCommit (st : St) : Res Unit :=
  if st.mNil then Res.panicked "invalid memory address or nil pointer dereference" st
  else if !st.txOpen then Res.panicked "no transaction in progress, cannot commit" st
  else
    match popEnv st with
    | (DbRes.ok, st) => Res.ok () (emit Op.commitTx { st with txOpen := false })
    | (DbRes.fail m, st) =>
        Res.panicked ("unable to commit transaction in migration: " ++ m) st
    | (DbRes.hardFail m, st) =>
        Res.panicked ("unable to commit transaction in migration: " ++ m) st

/-- `Schema.Close`: `self.m.Close()` (panicking if `db.Close` errors)
followed by `self.m = nil`. -/
def schemaClose (st : St) : Res Unit :=
  if st.mNil then Res.panicked "invalid memory address or nil pointer dereference" st
  else
    match popEnv st with
    | (DbRes.ok, st) => Res.ok () (emit Op.closeHandle { st with mNil := true })
    | (DbRes.fail m, st) => Res.panicked m st
    | (DbRes.hardFail m, st) => Res.panicked m st

/-- `Migration.RenameTable`: issues the rename SQL on the transaction and
returns the driver's error, if any, as a value. -/
def migRenameTable (oldName newName : String) (st : St) : Res (Option String) :=
  if st.mNil then Res.panicked "invalid memory address or nil pointer dereference" st
  else
    let st := emit (Op.renameTable oldName newName) st
    match popEnv st with
    | (DbRes.ok, st) => Res.ok none st
    | (DbRes.fail m, st) => Res.ok (some m) st
    | (DbRes.hardFail m, st) => Res.ok (some m) st

/-- `Migration.CreateTable(tblName, structPtr, omitFields)` by way of
`createTableBase` with an empty override name, as the engine calls it:
the physical table name is `StructNameToTableName` of the struct's type
name. An `Exec` error the dialect does not absorb panics; an index
creation error is returned as a value. -/
def migCreateTable (structPtr : GoVal) (omitFields : List String) (st : St) :
    Res (Option String) :=
  if st.mNil then Res.panicked "invalid memory address or nil pointer dereference" st
  else
    match structPtr with
    | GoVal.vPtr (GoVal.vStruct n _ _) =>
      let st := emit (Op.createTable (structNameToTableName n) omitFields) st
      match popEnv st with
      | (DbRes.ok, st) => Res.ok none st
      | (DbRes.fail m, st) => Res.ok (some m) st
      | (DbRes.hardFail m, st) => Res.panicked m st
    | _ => Res.panicked "reflect: NumField of non-struct type" st

/-- `Migration.DropTable` (`dropTableIfExists`): issues the drop SQL; a
driver error the dialect absorbs is ignored, one it does not absorb
panics. Returns nothing. -/
def migDropTable (structPtr : GoVal) (st : St) : Res Unit :=
  if st.mNil then Res.panicked "invalid memory address or nil pointer dereference" st
  else
    match structPtr with
    | GoVal.vPtr (GoVal.vStruct n _ _) =>
      let st := emit (Op.dropTable (structNameToTableName n)) st
      match popEnv st with
      | (DbRes.ok, st) => Res.ok () st
      | (DbRes.fail _, st) => Res.ok () st
      | (DbRes.hardFail m, st) => Res.panicked m st
    | _ => Res.panicked "reflect: NumField of non-struct type" st

/-- `Migration.GetQbsSameTransaction`: panics when the transaction is
nil; otherwise hands back the transaction-bound mapper. -/
def getQbsSameTransaction (st : St) : Res Unit :=
  if st.mNil then Res.panicked "invalid memory address or nil pointer dereference" st
  else if !st.txOpen then
    Res.panicked "cant make a new qbs on same transaction because tx is nil!" st
  else Res.ok () st

/-! ## The column-name trap (`trapColumnsForSqlite3` / `untrapColumnsForSqlite3`) -/

/-- `Schema.trapColumnsForSqlite3(suffix)`: snapshot the two process-wide
mapping functions into the schema's `old...` fields and install the two
suffix-aware closures in their place. (The `self.reverse` map feeds only
the behaviour of the installed closures, which outside code consults; it
is not modelled because no claim observes mapping behaviour, only the
installed function values.) -/
def trapColumns (suffix : String) (st : St) : St :=
  { st with
    oldFieldNameToColumnName := some st.glob.fieldNameToColumnName,
    oldColumnNameToFieldName := some st.glob.columnNameToFieldName,
    glob := ⟨MapF.trapField suffix st.glob.fieldNameToColumnName,
             MapF.trapColumn suffix st.glob.columnNameToFieldName⟩ }

/-- `Schema.untrapColumnsForSqlite3`: restore each global from its saved
snapshot when one is present, clearing the snapshot. -/
def untrapColumns (st : St) : St :=
  let st1 :=
    match st.oldFieldNameToColumnName with
    | some f =>
      { st with glob := { st.glob with fieldNameToColumnName := f },
                oldFieldNameToColumnName := none }
    | none => st
  match st1.oldColumnNameToFieldName with
  | some f =>
    { st1 with glob := { st1.glob with columnNameToFieldName := f },
               oldColumnNameToFieldName := none }
  | none => st1

/-! ## The `Schema` registry and operations (from the schema driver) -/

/-- Go map assignment `m[k] = v` on an insertion-ordered association
list: replace in place when the key exists, append otherwise. -/
def upsert (l : List (String × NameStructPair)) (k : String) (v : NameStructPair) :
    List (String × NameStructPair) :=
  match l with
  | [] => [(k, v)]
  | (k', v') :: rest => if k' = k then (k, v) :: rest else (k', v') :: upsert rest k v

/-- Go map read `m[k]` on the association list. -/
def lookupA (l : List (String × NameStructPair)) (k : String) : Option NameStructPair :=
  match l with
  | [] => none
  | (k', v') :: rest => if k' = k then some v' else lookupA rest k

/-- `Schema.ChangeTable`: a nil `prev` registers a pure creation in
`curr`, a nil `curr` a pure drop in `prev`, both non-nil a shape change
in both (`curr` introspected first, as in the source). Both nil reaches
`structPair` with a nil interface, where `reflect.ValueOf(nil).Type()`
panics. -/
def changeTable (logicalName : String) (prevRaw currRaw : Option GoVal) (st : St) :
    Res (Option String) :=
  match prevRaw with
  | none =>
    match currRaw with
    | none => Res.panicked "reflect: call of reflect.Value.Type on zero Value" st
    | some c =>
      match structPair c with
      | PanicOr.panicked m => Res.panicked m st
      | PanicOr.ok pair => Res.ok none { st with curr := upsert st.curr logicalName pair }
  | some p =>
    match currRaw with
    | none =>
      match structPair p with
      | PanicOr.panicked m => Res.panicked m st
      | PanicOr.ok pair => Res.ok none { st with prev := upsert st.prev logicalName pair }
    | some c =>
      match structPair c with
      | PanicOr.panicked m => Res.panicked m st
      | PanicOr.ok currPair =>
        match structPair p with
        | PanicOr.panicked m => Res.panicked m st
        | PanicOr.ok prevPair =>
          Res.ok none { st with prev := upsert st.prev logicalName prevPair,
                                curr := upsert st.curr logicalName currPair }

/-- First loop of `renameCurrentTablesAddColumns`: for every entry of
`prev` (the source puts no `in-both` condition on this loop), rename the
canonical physical table to the physical name of the previous record
shape. -/
def renamePrevLoop : List (String × NameStructPair) → St → Res (Option String)
  | [], st => Res.ok none st
  | (logicalName, pair) :: rest, st =>
    match migRenameTable (structNameToTableName logicalName)
        (structNameToTableName pair.name) st with
    | Res.panicked m st => Res.panicked m st
    | Res.ok (some e) st => Res.ok (some e) st
    | Res.ok none st => renamePrevLoop rest st

/-- Second loop of `renameCurrentTablesAddColumns`: for every entry of
`curr`, under a trap for the `NEW` suffix, create the new-shape table
(whose physical name `CreateTable` derives from the record's own type
name, the override name being empty) omitting fields with the `OLD`
suffix; untrap before inspecting the error. A panic from `CreateTable`
escapes with the trap still installed, mirroring the absence of a
`defer` in the source. -/
def createCurrLoop : List (String × NameStructPair) → St → Res (Option String)
  | [], st => Res.ok none st
  | (_, pair) :: rest, st =>
    let st := trapColumns "NEW" st
    match fieldsWithSuffix pair.typeRep "OLD" with
    | PanicOr.panicked m => Res.panicked m st
    | PanicOr.ok omitted =>
      match migCreateTable pair.typeRep omitted st with
      | Res.panicked m st => Res.panicked m st
      | Res.ok err st =>
        let st := untrapColumns st
        match err with
        | some e => Res.ok (some e) st
        | none => createCurrLoop rest st

/-- `Schema.renameCurrentTablesAddColumns`: the rename/shadow phase. -/
def renameCurrentTablesAddColumns (st : St) : Res (Option String) :=
  match renamePrevLoop st.prev st with
  | Res.panicked m st => Res.panicked m st
  | Res.ok (some e) st => Res.ok (some e) st
  | Res.ok none st => createCurrLoop st.curr st

/-- First loop of `removeOldRenameColumns`: drop the (renamed) physical
table of every `prev` entry. -/
def dropPrevLoop : List (String × NameStructPair) → St → Res Unit
  | [], st => Res.ok () st
  | (_, pair) :: rest, st =>
    match migDropTable pair.typeRep st with
    | Res.panicked m st => Res.panicked m st
    | Res.ok _ st => dropPrevLoop rest st

/-- Second loop of `removeOldRenameColumns`: move every `curr` entry's
new-shape table (as named after its record type) into place under the
canonical physical name of the logical name. -/
def renameCurrLoop : List (String × NameStructPair) → St → Res (Option String)
  | [], st => Res.ok none st
  | (logicalName, pair) :: rest, st =>
    match migRenameTable (structNameToTableName pair.name)
        (structNameToTableName logicalName) st with
    | Res.panicked m st => Res.panicked m st
    | Res.ok (some e) st => Res.ok (some e) st
    | Res.ok none st => renameCurrLoop rest st

/-- `Schema.removeOldRenameColumns`: the finalization phase. -/
def removeOldRenameColumns (st : St) : Res (Option String) :=
  match dropPrevLoop st.prev st with
  | Res.panicked m st => Res.panicked m st
  | Res.ok _ st => renameCurrLoop st.curr st

/-- `Schema.FindAll(logicalName)`: fetch the transaction-bound mapper,
read the `prev` pair (a missing logical name leaves `pair` nil and the
subsequent `pair.typeRep` dereference panics), build the result slice,
trap for `NEW`, omit `OLD`-suffixed fields, run the select, untrap, and
on a query error roll back and return the error. No logical-name format
check is performed. The wildcard branch is the `reflect` panic
`fieldsWithSuffix` raises when the registered prototype is not a struct
pointer. -/
def schemaFindAll (logicalName : String) (st : St) : Res (Except String Unit) :=
  match getQbsSameTransaction st with
  | Res.panicked m st => Res.panicked m st
  | Res.ok _ st =>
    match lookupA st.prev logicalName with
    | none => Res.panicked "invalid memory address or nil pointer dereference" st
    | some pair =>
      let st := trapColumns "NEW" st
      match pair.typeRep with
      | GoVal.vPtr (GoVal.vStruct n _ _) =>
        let st := emit (Op.findAllQuery (structNameToTableName n)) st
        match popEnv st with
        | (DbRes.ok, st) => Res.ok (Except.ok ()) (untrapColumns st)
        | (DbRes.fail m, st) =>
          let st := untrapColumns st
          match migRollback st with
          | Res.panicked pm st => Res.panicked pm st
          | Res.ok _ st => Res.ok (Except.error m) st
        | (DbRes.hardFail m, st) => Res.panicked m st
      | _ => Res.panicked "reflect: NumField of non-struct type" st

/-- `Schema.Save(logicalName, curr)`: check the logical-name format,
fetch the transaction-bound mapper, omit `OLD`-suffixed fields, trap for
`NEW`, run the insert/update, untrap, and on an error roll back and
return it. The wildcard branch is the `reflect` panic `fieldsWithSuffix`
raises when `curr` is not a struct pointer. -/
def schemaSave (logicalName : String) (curr : GoVal) (st : St) : Res (Except String Unit) :=
  match checkLogicalName logicalName curr with
  | PanicOr.panicked m => Res.panicked m st
  | PanicOr.ok _ =>
    match getQbsSameTransaction st with
    | Res.panicked m st => Res.panicked m st
    | Res.ok _ st =>
      match curr with
      | GoVal.vPtr (GoVal.vStruct n _ _) =>
        let st := trapColumns "NEW" st
        let st := emit (Op.saveQuery (structNameToTableName n)) st
        match popEnv st with
        | (DbRes.ok, st) => Res.ok (Except.ok ()) (untrapColumns st)
        | (DbRes.fail m, st) =>
          let st := untrapColumns st
          match migRollback st with
          | Res.panicked pm st => Res.panicked pm st
          | Res.ok _ st => Res.ok (Except.error m) st
        | (DbRes.hardFail m, st) => Res.panicked m st
      | _ => Res.panicked "reflect: NumField of non-struct type" st

/-! ## User-supplied migration steps as programs -/

/-- A user `Structure` phase: a sequence of `ChangeTable` calls whose
error results the user propagates, ending by returning nil, returning an
error, or panicking. -/
inductive UStruct where
  | sdone : UStruct
  | serr (e : String) : UStruct
  | spanic (m : String) : UStruct
  | schange (logicalName : String) (prevRaw currRaw : Option GoVal) (rest : UStruct) : UStruct

/-- A user `Data` phase: calls to `Schema.FindAll` and `Schema.Save`
with a continuation for each outcome (the error continuation receives
the error value, so a user can return it unchanged, swallow it, or
panic), ending by returning a row count, returning an error, or
panicking. -/
inductive UData where
  | dret (count : Int) : UData
  | derr (e : String) : UData
  | dpanic (m : String) : UData
  | dfindAll (logicalName : String) (onOk : UData) (onErr : String → UData) : UData
  | dsave (logicalName : String) (rec : GoVal) (onOk : UData) (onErr : String → UData) : UData

/-- A `ReversibleMigration`: the `Structure` program and a `Data`
program that may depend on the two booleans (`hasColumnOperations`,
`reverse`) it is called with. -/
structure UStep where
  structPhase : UStruct
  dataPhase : Bool → Bool → UData

/-- Interpret a `Structure` phase against the schema. -/
def runUStruct : UStruct → St → Res (Option String)
  | UStruct.sdone, st => Res.ok none st
  | UStruct.serr e, st => Res.ok (some e) st
  | UStruct.spanic m, st => Res.panicked m st
  | UStruct.schange l p c rest, st =>
    match changeTable l p c st with
    | Res.panicked m st => Res.panicked m st
    | Res.ok (some e) st => Res.ok (some e) st
    | Res.ok none st => runUStruct rest st

/-- Interpret a `Data` phase against the schema, yielding the
`(rowsMoved, error)` pair the step returns. -/
def runUData : UData → St → Res (Int × Option String)
  | UData.dret n, st => Res.ok (n, none) st
  | UData.derr e, st => Res.ok (0, some e) st
  | UData.dpanic m, st => Res.panicked m st
  | UData.dfindAll l onOk onErr, st =>
    match schemaFindAll l st with
    | Res.panicked m st => Res.panicked m st
    | Res.ok (Except.ok _) st => runUData onOk st
    | Res.ok (Except.error e) st => runUData (onErr e) st
  | UData.dsave l rec onOk onErr, st =>
    match schemaSave l rec st with
    | Res.panicked m st => Res.panicked m st
    | Res.ok (Except.ok _) st => runUData onOk st
    | Res.ok (Except.error e) st => runUData (onErr e) st

/-! ## The migration driver (`Schema.migrate` and `Schema.Run`) -/

/-- `Schema.migrate`: clear the registry, run `Structure`, flip on
reverse, run the rename/shadow phase (whose returned error the source
discards), run `Data` passing `HasColumnOperations()`, then finalize.
The success log line has no modelled effect. -/
def migrate (info : UStep) (reverse : Bool) (st : St) : Res (Option String) :=
  let st := { st with prev := [], curr := [] }
  match runUStruct info.structPhase st with
  | Res.panicked m st => Res.panicked m st
  | Res.ok (some e) st => Res.ok (some e) st
  | Res.ok none st =>
    let st := if reverse then { st with prev := st.curr, curr := st.prev } else st
    match renameCurrentTablesAddColumns st with
    | Res.panicked m st => Res.panicked m st
    | Res.ok _ st =>
      if st.mNil then Res.panicked "invalid memory address or nil pointer dereference" st
      else
        match runUData (info.dataPhase st.hasColOps reverse) st with
        | Res.panicked m st => Res.panicked m st
        | Res.ok (_, some e) st => Res.ok (some e) st
        | Res.ok (_, none) st =>
          match removeOldRenameColumns st with
          | Res.panicked m st => Res.panicked m st
          | Res.ok (some e) st => Res.ok (some e) st
          | Res.ok none st => Res.ok none st

/-- The error branch shared by both loop bodies of `Run`:
`self.m.Rollback(); self.Close(); return err`. -/
def runErrExit (e : String) (st : St) : Res (Option String) :=
  match migRollback st with
  | Res.panicked m st => Res.panicked m st
  | Res.ok _ st =>
    match schemaClose st with
    | Res.panicked m st => Res.panicked m st
    | Res.ok _ st => Res.ok (some e) st

/-- The forward loop of `Run`, `for i := from; i < to; i++`, written
with its iteration count `upto - i` as an explicit structural argument
(the guard `i < upto` is exactly `count > 0` along the run). -/
def runLoopFwdAux (info : List UStep) : Nat → Nat → St → Res (Option String)
  | 0, _, st => Res.ok none st
  | count + 1, i, st =>
    match info.get? i with
    | none => Res.panicked "runtime error: index out of range" st
    | some step =>
      match migrate step false st with
      | Res.panicked m st => Res.panicked m st
      | Res.ok (some e) st => runErrExit e st
      | Res.ok none st => runLoopFwdAux info count (i + 1) st

/-- The forward loop of `Run` from index `i` up to (excluding) `upto`. -/
def runLoopFwd (info : List UStep) (i upto : Nat) (st : St) : Res (Option String) :=
  runLoopFwdAux info (upto - i) i st

/-- The reverse loop of `Run`, `for i := from - 1; i >= to; i--`,
written with its iteration count as an explicit structural argument (in
Go `i` is a signed int and the loop exits when `i` drops below `to`;
the count `i + 1 - downto` expresses that bound: the guard `i >= to` is
exactly `count > 0` along the run). -/
def runLoopRevAux (info : List UStep) : Nat → Nat → St → Res (Option String)
  | 0, _, st => Res.ok none st
  | count + 1, i, st =>
    match info.get? i with
    | none => Res.panicked "runtime error: index out of range" st
    | some step =>
      match migrate step true st with
      | Res.panicked m st => Res.panicked m st
      | Res.ok (some e) st => runErrExit e st
      | Res.ok none st => runLoopRevAux info count (i - 1) st

/-- The reverse loop of `Run` from index `i` down to (including) `downto`. -/
def runLoopRev (info : List UStep) (i downto : Nat) (st : St) : Res (Option String) :=
  runLoopRevAux info (i + 1 - downto) i st

/-- The deferred recover handler of `Run`: on a trapped panic, untrap,
roll back, close, print a diagnostic with a stack trace (unmodelled IO),
and return the panic condition as an error. A panic raised by the
handler's own `Rollback` or `Close` escapes `Run`. -/
def recoverHandler (x : String) (st : St) : Res (Option String) :=
  let st := untrapColumns st
  match migRollback st with
  | Res.panicked m st => Res.panicked m st
  | Res.ok _ st =>
    match schemaClose st with
    | Res.panicked m st => Res.panicked m st
    | Res.ok _ st => Res.ok (some x) st

/-- `Schema.Run(info, from, to)`: no-op when `from == to`; otherwise
`Begin` (a panic there precedes the installation of the deferred
recover, so it escapes), then the forward or reverse loop, then a single
`Commit`; panics raised after the defer is installed are fed to the
recover handler. -/
def schemaRun (info : List UStep) (f t : Nat) (st : St) : Res (Option String) :=
  if f = t then Res.ok none st
  else
    match migBegin st with
    | Res.panicked m st => Res.panicked m st
    | Res.ok _ st =>
      match (if f < t then runLoopFwd info f t st else runLoopRev info (f - 1) t st) with
      | Res.panicked m st => recoverHandler m st
      | Res.ok (some e) st => Res.ok (some e) st
      | Res.ok none st =>
        match migCommit st with
        | Res.panicked m st => recoverHandler m st
        | Res.ok _ st => Res.ok none st

/-! ## Projections and initial state -/

/-- The panic message of a result, when it panicked. -/
def Res.panicMsg {α : Type} : Res α → Option String
  | Res.panicked m _ => some m
  | Res.ok _ _ => none

/-- The returned value of a result, when it returned normally. -/
def Res.retVal {α : Type} : Res α → Option α
  | Res.ok a _ => some a
  | Res.panicked _ _ => none

/-- The state a result left behind. -/
def Res.state {α : Type} : Res α → St
  | Res.ok _ st => st
  | Res.panicked _ st => st

/-- Number of commit operations in a trace. -/
def commitCount (l : List Op) : Nat := (l.filter (fun op => op = Op.commitTx)).length

/-- Number of rollback operations in a trace. -/
def rollbackCount (l : List Op) : Nat := (l.filter (fun op => op = Op.rollbackTx)).length

/-- The state of a fresh `Schema` over a fresh `Migration` handle: empty
registries, no snapshots (`NewSchema` leaves the `old...` fields nil),
no open transaction, live handle, given globals, oracle schedule, and an
empty trace. -/
def initSt (g : Globals) (env : List DbRes) (hasColOps : Bool) : St :=
  { prev := [], curr := [], oldFieldNameToColumnName := none,
    oldColumnNameToFieldName := none, txOpen := false, mNil := false,
    hasColOps := hasColOps, glob := g, env := env, trace := [] }

/-! ## The spec-side driver (for the refinement claim about step order) -/

/-- Modelled from the spec's words (§4.6): apply the steps at the given
indices, in list order, in the given direction, with the driver's
per-error exit (`Rollback`, `Close`, return the error). This is the
reference formulation the driver's loops are compared against. -/
def applySteps (info : List UStep) (reverse : Bool) : List Nat → St → Res (Option String)
  | [], st => Res.ok none st
  | i :: rest, st =>
    match info.get? i with
    | none => Res.panicked "runtime error: index out of range" st
    | some step =>
      match migrate step reverse st with
      | Res.panicked m st => Res.panicked m st
      | Res.ok (some e) st => runErrExit e st
      | Res.ok none st => applySteps info reverse rest st

/-- Modelled from the spec's words (§4.6): `Run` as the spec states it —
a no-op when `from == to`; otherwise, inside the transaction and the
recover wrapper, apply `steps[from], …, steps[to-1]` forward when
`from < to`, and `steps[from-1], …, steps[to]` in reverse when
`from > to`, committing once at the end. -/
def schemaRunSpec (info : List UStep) (f t : Nat) (st : St) : Res (Option String) :=
  if f = t then Res.ok none st
  else
    match migBegin st with
    | Res.panicked m st => Res.panicked m st
    | Res.ok _ st =>
      match (if f < t then applySteps info false (List.range' f (t - f)) st
             else applySteps info true (List.range' t (f - t)).reverse st) with
      | Res.panicked m st => recoverHandler m st
      | Res.ok (some e) st => Res.ok (some e) st
      | Res.ok none st =>
        match migCommit st with
        | Res.panicked m st => recoverHandler m st
        | Res.ok _ st => Res.ok none st

/-! ## Invariant vocabulary and concrete scenario inputs -/

/-- No column-name trap is active: both snapshot fields are nil, as in a
fresh `Schema`. -/
def TrapFree (st : St) : Prop :=
  st.oldFieldNameToColumnName = none ∧ st.oldColumnNameToFieldName = none

/-- Is an operation a table creation? -/
def isCreateOp : Op → Bool
  | Op.createTable _ _ => true
  | _ => false

/-- A pair of distinguishable pre-existing mapping function values. -/
def gBase : Globals := ⟨MapF.base 0, MapF.base 1⟩

/-- `&Article_migration1{}`: the version-1 article shape of the test
step list. -/
def article1Ptr : GoVal :=
  GoVal.vPtr (GoVal.vStruct "Article_migration1" ["Id", "Author", "Content"] 1)

/-- `&Article_migration2{}`: the version-2 article shape of the test
step list, with its `OLD`/`NEW`-suffixed fields. -/
def article2Ptr : GoVal :=
  GoVal.vPtr (GoVal.vStruct "Article_migration2"
    ["Id", "Author", "ContentOLD", "ContentNEW", "CreatedNEW", "UpdatedNEW"] 2)

/-- A record shape whose type name has no `"_migration"` infix. -/
def bogusPtr : GoVal := GoVal.vPtr (GoVal.vStruct "Bogus" ["Id"] 3)

/-- A step whose `Structure` registers one table change and whose `Data`
phase does nothing: the building block of the rename/shadow scenarios. -/
def oneChangeStep (logicalName : String) (prevRaw currRaw : Option GoVal) : UStep :=
  { structPhase := UStruct.schange logicalName prevRaw currRaw UStruct.sdone,
    dataPhase := fun _ _ => UData.dret 0 }

/-- A step whose `Data` phase calls `Save` and returns the error `Save`
hands back unchanged, as `Migrate2_MoveContent` does. -/
def saveErrStep : UStep :=
  { structPhase := UStruct.schange "Article" none (some article1Ptr) UStruct.sdone,
    dataPhase := fun _ _ =>
      UData.dsave "Article" article1Ptr (UData.dret 1) (fun e => UData.derr e) }

/-- A step whose `Data` phase calls `Save` and panics when `Save`
reports an error. -/
def savePanicStep : UStep :=
  { structPhase := UStruct.schange "Article" none (some article1Ptr) UStruct.sdone,
    dataPhase := fun _ _ =>
      UData.dsave "Article" article1Ptr (UData.dret 1)
        (fun _ => UData.dpanic "user panic after failed save") }

/-- A step that registers `"Article"` in `prev` under a record shape
whose type name (`Bogus`) violates the `<logical>_migration<N>` format,
with a `Data` phase that calls `FindAll` on it. -/
def findAllBogusStep : UStep :=
  { structPhase := UStruct.schange "Article" (some bogusPtr) (some article2Ptr) UStruct.sdone,
    dataPhase := fun _ _ =>
      UData.dfindAll "Article" (UData.dret 1) (fun e => UData.derr e) }

/-- Oracle schedule for the failed-`Save` scenarios: `Begin` and
`CreateTable` succeed, `q.Save` reports an error, the rollback issued
inside `Schema.Save` succeeds. -/
def saveFailEnv : List DbRes := [DbRes.ok, DbRes.ok, DbRes.fail "save failed", DbRes.ok]

/-- Run of the step whose `Data` error comes from a failed `Save`. -/
def saveErrRun : Res (Option String) :=
  schemaRun [saveErrStep] 0 1 (initSt gBase saveFailEnv false)

/-- Run of the step that panics after a failed `Save`. -/
def savePanicRun : Res (Option String) :=
  schemaRun [savePanicStep] 0 1 (initSt gBase saveFailEnv false)

/-- Forward run of the one-step shape change `Article_migration1 →
Article_migration2` with an all-success oracle. -/
def shapeChangeRun : Res (Option String) :=
  schemaRun [oneChangeStep "Article" (some article1Ptr) (some article2Ptr)] 0 1
    (initSt gBase [] false)

/-- Forward run of the one-step pure drop of `"Article"` with an
all-success oracle. -/
def pureDropRun : Res (Option String) :=
  schemaRun [oneChangeStep "Article" (some article1Ptr) none] 0 1 (initSt gBase [] false)

/-- Forward run of the step whose `Data` phase calls `FindAll` on the
format-violating `Bogus` shape, with an all-success oracle. -/
def findAllBogusRun : Res (Option String) :=
  schemaRun [findAllBogusStep] 0 1 (initSt gBase [] false)

/-- Preservation relation between an entry state and a normal-return
state: no trap is left active, the process-wide mapping functions are
back to their entry values, and no commit has been added to the trace. -/
def okPres (st st' : St) : Prop :=
  TrapFree st' ∧ st'.glob = st.glob ∧ commitCount st'.trace = commitCount st.trace

/-- Preservation invariant for a result of engine code entered with no
trap active: a normal return satisfies `okPres`; a panic may leave the
trap installed, but running `untrapColumnsForSqlite3` (as the deferred
recover handler does first) restores the entry mappings — and in either
case no commit was added. -/
def ResInv {α : Type} (st : St) : Res α → Prop
  | Res.ok _ st' => okPres st st'
  | Res.panicked _ st' =>
    TrapFree (untrapColumns st') ∧ (untrapColumns st').glob = st.glob ∧
      commitCount st'.trace = commitCount st.trace

/-- A mid-transaction state whose `prev` registry holds `"Article"`
under the format-violating `Bogus` shape, with one successful query
outcome scheduled: the entry state for calling `FindAll` directly. -/
def bogusFindSt : St :=
  { initSt gBase [DbRes.ok] false with
    prev := [("Article", ⟨"Bogus", bogusPtr⟩)], txOpen := true }

/-- Relation satisfied by code that never touches the mapping globals,
the trap snapshots, or the commit count — whether it returns or panics:
the building block used both outside and inside trap windows. -/
def noMapChange {α : Type} (st : St) (r : Res α) : Prop :=
  (Res.state r).oldFieldNameToColumnName = st.oldFieldNameToColumnName ∧
  (Res.state r).oldColumnNameToFieldName = st.oldColumnNameToFieldName ∧
  (Res.state r).glob = st.glob ∧
  commitCount (Res.state r).trace = commitCount st.trace

/-! ## Theorems -/

/-- Appending a non-commit operation leaves the commit count unchanged;
appending a commit raises it by one. -/
theorem commitCount_append (l : List Op) (op : Op) :
    commitCount (l ++ [op]) = commitCount l + (if op = Op.commitTx then 1 else 0) := by
  by_cases h : op = Op.commitTx <;> simp [commitCount, List.filter_append, h]

/-- With no trap active, `untrapColumnsForSqlite3` is the identity. -/
theorem untrap_of_trapFree (st : St) (h : TrapFree st) : untrapColumns st = st := by
  obtain ⟨h1, h2⟩ := h
  simp [untrapColumns, h1, h2]

/-- A panic that itself leaves no trap active satisfies the invariant. -/
theorem ResInv_panicked_of_trapFree {α : Type} {st st' : St} {m : String}
    (h : TrapFree st') (hg : st'.glob = st.glob)
    (hc : commitCount st'.trace = commitCount st.trace) :
    ResInv st (Res.panicked (α := α) m st') := by
  refine ⟨?_, ?_, hc⟩ <;> rw [untrap_of_trapFree st' h]
  · exact h
  · exact hg

/-- `okPres` composes. -/
theorem okPres_trans {a b c : St} (h1 : okPres a b) (h2 : okPres b c) : okPres a c :=
  ⟨h2.1, h2.2.1.trans h1.2.1, h2.2.2.trans h1.2.2⟩

/-- The invariant composes after a preserving prefix. -/
theorem ResInv_of_okPres {α : Type} {a b : St} {r : Res α}
    (h1 : okPres a b) (h2 : ResInv b r) : ResInv a r := by
  cases r with
  | ok v st' => exact okPres_trans h1 h2
  | panicked m st' =>
    exact ⟨h2.1, h2.2.1.trans h1.2.1, h2.2.2.trans h1.2.2⟩

/-- `untrapColumnsForSqlite3` with both snapshots present: restore them
into the globals and clear the snapshots. -/
theorem untrap_fields (st : St) {f c : MapF} (h1 : st.oldFieldNameToColumnName = some f)
    (h2 : st.oldColumnNameToFieldName = some c) :
    untrapColumns st =
      { st with glob := Globals.mk f c, oldFieldNameToColumnName := none,
                oldColumnNameToFieldName := none } := by
  simp [untrapColumns, h1, h2]

/-- Code that touches no mapping state and adds no commit satisfies the
preservation invariant whenever it starts with no trap active. -/
theorem ResInv_of_noMapChange {α : Type} {st : St} {r : Res α}
    (h : TrapFree st) (hn : noMapChange st r) : ResInv st r := by
  obtain ⟨e1, e2, e3, e4⟩ := hn
  cases r with
  | ok v st' => exact ⟨⟨e1.trans h.1, e2.trans h.2⟩, e3, e4⟩
  | panicked m st' =>
    have hf : TrapFree st' := ⟨e1.trans h.1, e2.trans h.2⟩
    have hu := untrap_of_trapFree st' hf
    exact ⟨by rw [hu]; exact hf, by rw [hu]; exact e3, e4⟩
theorem migBegin_nmc (st : St) : noMapChange st (migBegin st) := by
  unfold migBegin
  split
  · exact ⟨rfl, rfl, rfl, rfl⟩
  · rcases he : st.env with _ | ⟨r, rest⟩
    · simp only [popEnv, he]
      exact ⟨rfl, rfl, rfl, by simp [emit, Res.state, commitCount_append]⟩
    · cases r <;> simp only [popEnv, he] <;>
        exact ⟨rfl, rfl, rfl, by simp [emit, Res.state, commitCount_append]⟩

theorem migRollback_nmc (st : St) : noMapChange st (migRollback st) := by
  unfold migRollback
  split
  · exact ⟨rfl, rfl, rfl, rfl⟩
  · split
    · exact ⟨rfl, rfl, rfl, rfl⟩
    · rcases he : st.env with _ | ⟨r, rest⟩
      · simp only [popEnv, he]
        exact ⟨rfl, rfl, rfl, by simp [emit, Res.state, commitCount_append]⟩
      · cases r <;> simp only [popEnv, he] <;>
          exact ⟨rfl, rfl, rfl, by simp [emit, Res.state, commitCount_append]⟩

theorem schemaClose_nmc (st : St) : noMapChange st (schemaClose st) := by
  unfold schemaClose
  split
  · exact ⟨rfl, rfl, rfl, rfl⟩
  · rcases he : st.env with _ | ⟨r, rest⟩
    · simp only [popEnv, he]
      exact ⟨rfl, rfl, rfl, by simp [emit, Res.state, commitCount_append]⟩
    · cases r <;> simp only [popEnv, he] <;>
        exact ⟨rfl, rfl, rfl, by simp [emit, Res.state, commitCount_append]⟩

theorem migRenameTable_nmc (oldN newN : String) (st : St) :
    noMapChange st (migRenameTable oldN newN st) := by
  unfold migRenameTable
  split
  · exact ⟨rfl, rfl, rfl, rfl⟩
  · rcases he : st.env with _ | ⟨r, rest⟩
    · simp only [popEnv, emit, he]
      exact ⟨rfl, rfl, rfl, by simp [Res.state, commitCount_append]⟩
    · cases r <;> simp only [popEnv, emit, he] <;>
        exact ⟨rfl, rfl, rfl, by simp [Res.state, commitCount_append]⟩

theorem migCreateTable_nmc (structPtr : GoVal) (omitFields : List String) (st : St) :
    noMapChange st (migCreateTable structPtr omitFields st) := by
  unfold migCreateTable
  split
  · exact ⟨rfl, rfl, rfl, rfl⟩
  · split
    · rcases he : st.env with _ | ⟨r, rest⟩
      · simp only [popEnv, emit, he]
        exact ⟨rfl, rfl, rfl, by simp [Res.state, commitCount_append]⟩
      · cases r <;> simp only [popEnv, emit, he] <;>
          exact ⟨rfl, rfl, rfl, by simp [Res.state, commitCount_append]⟩
    · exact ⟨rfl, rfl, rfl, rfl⟩

theorem migDropTable_nmc (structPtr : GoVal) (st : St) :
    noMapChange st (migDropTable structPtr st) := by
  unfold migDropTable
  split
  · exact ⟨rfl, rfl, rfl, rfl⟩
  · split
    · rcases he : st.env with _ | ⟨r, rest⟩
      · simp only [popEnv, emit, he]
        exact ⟨rfl, rfl, rfl, by simp [Res.state, commitCount_append]⟩
      · cases r <;> simp only [popEnv, emit, he] <;>
          exact ⟨rfl, rfl, rfl, by simp [Res.state, commitCount_append]⟩
    · exact ⟨rfl, rfl, rfl, rfl⟩

theorem getQbs_nmc (st : St) : noMapChange st (getQbsSameTransaction st) := by
  unfold getQbsSameTransaction
  split
  · exact ⟨rfl, rfl, rfl, rfl⟩
  · split <;> exact ⟨rfl, rfl, rfl, rfl⟩

theorem changeTable_nmc (l : String) (p c : Option GoVal) (st : St) :
    noMapChange st (changeTable l p c st) := by
  unfold changeTable
  repeat' split
  all_goals exact ⟨rfl, rfl, rfl, rfl⟩
/-- A state reached inside a trap window (its snapshots hold the entry
globals) whose panic escapes: running the handler's untrap restores the
entry mappings, so the invariant holds. -/
theorem window_panic {α : Type} (st st2 : St) (m : String)
    (e1 : st2.oldFieldNameToColumnName = some st.glob.fieldNameToColumnName)
    (e2 : st2.oldColumnNameToFieldName = some st.glob.columnNameToFieldName)
    (e4 : commitCount st2.trace = commitCount st.trace) :
    ResInv st (Res.panicked (α := α) m st2) := by
  have hu := untrap_fields st2 e1 e2
  exact ⟨by rw [hu]; exact ⟨rfl, rfl⟩, by rw [hu], e4⟩

/-- A state reached inside a trap window followed by the window's own
untrap: the entry mappings are restored. -/
theorem window_ok (st st2 : St)
    (e1 : st2.oldFieldNameToColumnName = some st.glob.fieldNameToColumnName)
    (e2 : st2.oldColumnNameToFieldName = some st.glob.columnNameToFieldName)
    (e4 : commitCount st2.trace = commitCount st.trace) :
    okPres st (untrapColumns st2) := by
  have hu := untrap_fields st2 e1 e2
  exact ⟨by rw [hu]; exact ⟨rfl, rfl⟩, by rw [hu], by rw [hu]; exact e4⟩
theorem runUStruct_inv (p : UStruct) (st : St) (h : TrapFree st) :
    ResInv st (runUStruct p st) := by
  induction p generalizing st with
  | sdone => exact ⟨h, rfl, rfl⟩
  | serr e => exact ⟨h, rfl, rfl⟩
  | spanic m => exact ResInv_panicked_of_trapFree h rfl rfl
  | schange l pr cu rest ih =>
    unfold runUStruct
    have hct := changeTable_nmc l pr cu st
    cases hc : changeTable l pr cu st with
    | panicked m st' =>
      rw [hc] at hct
      exact ResInv_of_noMapChange h hct
    | ok v st' =>
      rw [hc] at hct
      have hok : okPres st st' :=
        ⟨⟨hct.1.trans h.1, hct.2.1.trans h.2⟩, hct.2.2.1, hct.2.2.2⟩
      cases v with
      | some e => exact hok
      | none => exact ResInv_of_okPres hok (ih st' hok.1)

theorem renamePrevLoop_inv (l : List (String × NameStructPair)) (st : St) (h : TrapFree st) :
    ResInv st (renamePrevLoop l st) := by
  induction l generalizing st with
  | nil => exact ⟨h, rfl, rfl⟩
  | cons hd tl ih =>
    unfold renamePrevLoop
    obtain ⟨ln, pair⟩ := hd
    have hr := migRenameTable_nmc (structNameToTableName ln) (structNameToTableName pair.name) st
    cases hc : migRenameTable (structNameToTableName ln) (structNameToTableName pair.name) st with
    | panicked m st' =>
      rw [hc] at hr
      exact ResInv_of_noMapChange h hr
    | ok v st' =>
      rw [hc] at hr
      have hok : okPres st st' :=
        ⟨⟨hr.1.trans h.1, hr.2.1.trans h.2⟩, hr.2.2.1, hr.2.2.2⟩
      cases v with
      | some e => exact hok
      | none => exact ResInv_of_okPres hok (ih st' hok.1)

theorem renameCurrLoop_inv (l : List (String × NameStructPair)) (st : St) (h : TrapFree st) :
    ResInv st (renameCurrLoop l st) := by
  induction l generalizing st with
  | nil => exact ⟨h, rfl, rfl⟩
  | cons hd tl ih =>
    unfold renameCurrLoop
    obtain ⟨ln, pair⟩ := hd
    have hr := migRenameTable_nmc (structNameToTableName pair.name) (structNameToTableName ln) st
    cases hc : migRenameTable (structNameToTableName pair.name) (structNameToTableName ln) st with
    | panicked m st' =>
      rw [hc] at hr
      exact ResInv_of_noMapChange h hr
    | ok v st' =>
      rw [hc] at hr
      have hok : okPres st st' :=
        ⟨⟨hr.1.trans h.1, hr.2.1.trans h.2⟩, hr.2.2.1, hr.2.2.2⟩
      cases v with
      | some e => exact hok
      | none => exact ResInv_of_okPres hok (ih st' hok.1)

theorem dropPrevLoop_inv (l : List (String × NameStructPair)) (st : St) (h : TrapFree st) :
    ResInv st (dropPrevLoop l st) := by
  induction l generalizing st with
  | nil => exact ⟨h, rfl, rfl⟩
  | cons hd tl ih =>
    unfold dropPrevLoop
    obtain ⟨ln, pair⟩ := hd
    have hr := migDropTable_nmc pair.typeRep st
    cases hc : migDropTable pair.typeRep st with
    | panicked m st' =>
      rw [hc] at hr
      exact ResInv_of_noMapChange h hr
    | ok v st' =>
      rw [hc] at hr
      have hok : okPres st st' :=
        ⟨⟨hr.1.trans h.1, hr.2.1.trans h.2⟩, hr.2.2.1, hr.2.2.2⟩
      exact ResInv_of_okPres hok (ih st' hok.1)

theorem createCurrLoop_inv (l : List (String × NameStructPair)) (st : St) (h : TrapFree st) :
    ResInv st (createCurrLoop l st) := by
  induction l generalizing st with
  | nil => exact ⟨h, rfl, rfl⟩
  | cons hd tl ih =>
    unfold createCurrLoop
    obtain ⟨ln, pair⟩ := hd
    cases hf : fieldsWithSuffix pair.typeRep "OLD" with
    | panicked m => exact window_panic st _ _ rfl rfl rfl
    | ok omitted =>
      simp only [hf]
      have hr := migCreateTable_nmc pair.typeRep omitted (trapColumns "NEW" st)
      cases hc : migCreateTable pair.typeRep omitted (trapColumns "NEW" st) with
      | panicked m st' =>
        simp only [hc]
        rw [hc] at hr
        exact window_panic st st' m (hr.1.trans rfl) (hr.2.1.trans rfl)
          (hr.2.2.2.trans (by simp [trapColumns]))
      | ok v st' =>
        simp only [hc]
        rw [hc] at hr
        have hok : okPres st (untrapColumns st') :=
          window_ok st st' (hr.1.trans rfl) (hr.2.1.trans rfl)
            (hr.2.2.2.trans (by simp [trapColumns]))
        cases v with
        | some e => exact hok
        | none => exact ResInv_of_okPres hok (ih _ hok.1)
theorem renameCurrent_inv (st : St) (h : TrapFree st) :
    ResInv st (renameCurrentTablesAddColumns st) := by
  unfold renameCurrentTablesAddColumns
  have hp := renamePrevLoop_inv st.prev st h
  cases hc : renamePrevLoop st.prev st with
  | panicked m st' =>
    rw [hc] at hp
    exact hp
  | ok v st' =>
    rw [hc] at hp
    cases v with
    | some e => exact hp
    | none => exact ResInv_of_okPres hp (createCurrLoop_inv st'.curr st' hp.1)

theorem removeOld_inv (st : St) (h : TrapFree st) :
    ResInv st (removeOldRenameColumns st) := by
  unfold removeOldRenameColumns
  have hp := dropPrevLoop_inv st.prev st h
  cases hc : dropPrevLoop st.prev st with
  | panicked m st' =>
    rw [hc] at hp
    exact hp
  | ok v st' =>
    rw [hc] at hp
    exact ResInv_of_okPres hp (renameCurrLoop_inv st'.curr st' hp.1)

theorem getQbs_cases (st : St) :
    getQbsSameTransaction st = Res.ok () st ∨
      ∃ m, getQbsSameTransaction st = Res.panicked m st := by
  unfold getQbsSameTransaction
  split
  · exact Or.inr ⟨_, rfl⟩
  · split
    · exact Or.inr ⟨_, rfl⟩
    · exact Or.inl rfl

theorem rollback_then_err_inv {α : Type} (st3 : St) (h3 : TrapFree st3) (v : α) :
    ResInv st3 (match migRollback st3 with
      | Res.panicked pm st' => Res.panicked pm st'
      | Res.ok _ st' => Res.ok v st') := by
  have hr := migRollback_nmc st3
  cases hc : migRollback st3 with
  | panicked pm st' =>
    rw [hc] at hr
    simp only [hc]
    exact ResInv_of_noMapChange h3 hr
  | ok u st' =>
    rw [hc] at hr
    simp only [hc]
    exact (ResInv_of_noMapChange h3 hr : okPres st3 st')

theorem schemaFindAll_inv (l : String) (st : St) (h : TrapFree st) :
    ResInv st (schemaFindAll l st) := by
  unfold schemaFindAll
  rcases getQbs_cases st with hq | ⟨m, hq⟩
  case inr => simp only [hq]; exact ResInv_panicked_of_trapFree h rfl rfl
  simp only [hq]
  cases hl : lookupA st.prev l with
  | none => exact ResInv_panicked_of_trapFree h rfl rfl
  | some pair =>
    simp only [hl]
    obtain ⟨pn, pt⟩ := pair
    cases pt with
    | vPtr pointee =>
      cases pointee with
      | vStruct n fs tag =>
        rcases he : st.env with _ | ⟨r, rest⟩
        · simp only [popEnv, emit, trapColumns, he]
          exact window_ok st _ rfl rfl (by simp [trapColumns, commitCount_append])
        · cases r with
          | ok =>
            simp only [popEnv, emit, trapColumns, he]
            exact window_ok st _ rfl rfl (by simp [trapColumns, commitCount_append])
          | fail m =>
            simp only [popEnv, emit, trapColumns, he]
            have hok := window_ok st
              (emit (Op.findAllQuery (structNameToTableName n))
                { trapColumns "NEW" st with env := rest })
              rfl rfl (by simp [trapColumns, emit, commitCount_append])
            refine ResInv_of_okPres hok ?_
            exact rollback_then_err_inv _ hok.1 _
          | hardFail m =>
            simp only [popEnv, emit, trapColumns, he]
            exact window_panic st _ _ rfl rfl (by simp [trapColumns, commitCount_append])
      | vInt => exact window_panic st _ _ rfl rfl rfl
      | vPtr q => exact window_panic st _ _ rfl rfl rfl
      | vNilPtr t => exact window_panic st _ _ rfl rfl rfl
      | vSlice t e => exact window_panic st _ _ rfl rfl rfl
    | vInt => exact window_panic st _ _ rfl rfl rfl
    | vStruct a b c => exact window_panic st _ _ rfl rfl rfl
    | vNilPtr t => exact window_panic st _ _ rfl rfl rfl
    | vSlice t e => exact window_panic st _ _ rfl rfl rfl
theorem okPres_of_noMapChange {α : Type} {st st' : St} {a : α} (h : TrapFree st)
    (hn : noMapChange st (Res.ok a st')) : okPres st st' :=
  ⟨⟨hn.1.trans h.1, hn.2.1.trans h.2⟩, hn.2.2.1, hn.2.2.2⟩

theorem untrap_trace (st : St) : (untrapColumns st).trace = st.trace := by
  unfold untrapColumns
  cases h1 : st.oldFieldNameToColumnName <;> cases h2 : st.oldColumnNameToFieldName <;>
    simp [h1, h2]

theorem schemaSave_inv (l : String) (rec : GoVal) (st : St) (h : TrapFree st) :
    ResInv st (schemaSave l rec st) := by
  unfold schemaSave
  cases hck : checkLogicalName l rec with
  | panicked m => exact ResInv_panicked_of_trapFree h rfl rfl
  | ok u =>
    simp only [hck]
    rcases getQbs_cases st with hq | ⟨m, hq⟩
    case ok.inr.intro => simp only [hq]; exact ResInv_panicked_of_trapFree h rfl rfl
    simp only [hq]
    cases rec with
    | vPtr pointee =>
      cases pointee with
      | vStruct n fs tag =>
        rcases he : st.env with _ | ⟨r, rest⟩
        · simp only [popEnv, emit, trapColumns, he]
          exact window_ok st _ rfl rfl (by simp [trapColumns, commitCount_append])
        · cases r with
          | ok =>
            simp only [popEnv, emit, trapColumns, he]
            exact window_ok st _ rfl rfl (by simp [trapColumns, commitCount_append])
          | fail m =>
            simp only [popEnv, emit, trapColumns, he]
            have hok := window_ok st
              (emit (Op.saveQuery (structNameToTableName n))
                { trapColumns "NEW" st with env := rest })
              rfl rfl (by simp [trapColumns, emit, commitCount_append])
            refine ResInv_of_okPres hok ?_
            exact rollback_then_err_inv _ hok.1 _
          | hardFail m =>
            simp only [popEnv, emit, trapColumns, he]
            exact window_panic st _ _ rfl rfl (by simp [trapColumns, commitCount_append])
      | vInt => exact ResInv_panicked_of_trapFree h rfl rfl
      | vPtr q => exact ResInv_panicked_of_trapFree h rfl rfl
      | vNilPtr t => exact ResInv_panicked_of_trapFree h rfl rfl
      | vSlice t e => exact ResInv_panicked_of_trapFree h rfl rfl
    | vInt => exact ResInv_panicked_of_trapFree h rfl rfl
    | vStruct a b c => exact ResInv_panicked_of_trapFree h rfl rfl
    | vNilPtr t => exact ResInv_panicked_of_trapFree h rfl rfl
    | vSlice t e => exact ResInv_panicked_of_trapFree h rfl rfl

theorem runUData_inv (p : UData) (st : St) (h : TrapFree st) :
    ResInv st (runUData p st) := by
  induction p generalizing st with
  | dret n => exact ⟨h, rfl, rfl⟩
  | derr e => exact ⟨h, rfl, rfl⟩
  | dpanic m => exact ResInv_panicked_of_trapFree h rfl rfl
  | dfindAll l onOk onErr ihOk ihErr =>
    unfold runUData
    have hf := schemaFindAll_inv l st h
    cases hc : schemaFindAll l st with
    | panicked m st' =>
      rw [hc] at hf
      try simp only [hc]
      exact hf
    | ok v st' =>
      rw [hc] at hf
      try simp only [hc]
      cases v with
      | ok u => exact ResInv_of_okPres hf (ihOk st' hf.1)
      | error e => exact ResInv_of_okPres hf (ihErr e st' hf.1)
  | dsave l rec onOk onErr ihOk ihErr =>
    unfold runUData
    have hf := schemaSave_inv l rec st h
    cases hc : schemaSave l rec st with
    | panicked m st' =>
      rw [hc] at hf
      try simp only [hc]
      exact hf
    | ok v st' =>
      rw [hc] at hf
      try simp only [hc]
      cases v with
      | ok u => exact ResInv_of_okPres hf (ihOk st' hf.1)
      | error e => exact ResInv_of_okPres hf (ihErr e st' hf.1)
theorem migrate_inv (info : UStep) (reverse : Bool) (st : St) (h : TrapFree st) :
    ResInv st (migrate info reverse st) := by
  unfold migrate
  have h0 : TrapFree { st with prev := [], curr := [] } := ⟨h.1, h.2⟩
  have hs := runUStruct_inv info.structPhase { st with prev := [], curr := [] } h0
  cases hcs : runUStruct info.structPhase { st with prev := [], curr := [] } with
  | panicked m st' =>
    rw [hcs] at hs
    try simp only [hcs]
    exact hs
  | ok v st' =>
    rw [hcs] at hs
    try simp only [hcs]
    have hs' : okPres st st' := hs
    cases v with
    | some e => exact hs'
    | none =>
      have hflip : okPres st (if reverse then { st' with prev := st'.curr, curr := st'.prev }
          else st') := by
        cases reverse with
        | true => exact ⟨⟨hs'.1.1, hs'.1.2⟩, hs'.2.1, hs'.2.2⟩
        | false => exact hs'
      cases reverse with
      | true =>
        simp only [reduceIte]
        have hflip' : okPres st { st' with prev := st'.curr, curr := st'.prev } :=
          ⟨⟨hs'.1.1, hs'.1.2⟩, hs'.2.1, hs'.2.2⟩
        have hrc := renameCurrent_inv _ hflip'.1
        cases hcr : renameCurrentTablesAddColumns { st' with prev := st'.curr, curr := st'.prev } with
        | panicked m st2 =>
          rw [hcr] at hrc
          try simp only [hcr]
          exact ResInv_of_okPres hflip' hrc
        | ok v2 st2 =>
          rw [hcr] at hrc
          try simp only [hcr]
          have hok2 : okPres st st2 := okPres_trans hflip' hrc
          by_cases hmn : st2.mNil
          · simp only [if_pos hmn]
            exact ResInv_of_okPres hok2 (ResInv_panicked_of_trapFree hok2.1 rfl rfl)
          · simp only [if_neg hmn]
            have hd := runUData_inv (info.dataPhase st2.hasColOps true) st2 hok2.1
            cases hcd : runUData (info.dataPhase st2.hasColOps true) st2 with
            | panicked m st3 =>
              rw [hcd] at hd
              try simp only [hcd]
              exact ResInv_of_okPres hok2 hd
            | ok v3 st3 =>
              rw [hcd] at hd
              try simp only [hcd]
              have hok3 : okPres st st3 := okPres_trans hok2 hd
              obtain ⟨cnt, verr⟩ := v3
              cases verr with
              | some e => exact hok3
              | none =>
                have hro := removeOld_inv st3 hok3.1
                cases hcro : removeOldRenameColumns st3 with
                | panicked m st4 =>
                  rw [hcro] at hro
                  try simp only [hcro]
                  exact ResInv_of_okPres hok3 hro
                | ok v4 st4 =>
                  rw [hcro] at hro
                  try simp only [hcro]
                  have hok4 : okPres st st4 := okPres_trans hok3 hro
                  cases v4 with
                  | some e => exact hok4
                  | none => exact hok4
      | false =>
        simp only [Bool.false_eq_true, if_false]
        have hrc := renameCurrent_inv st' hs'.1
        cases hcr : renameCurrentTablesAddColumns st' with
        | panicked m st2 =>
          rw [hcr] at hrc
          try simp only [hcr]
          exact ResInv_of_okPres hs' hrc
        | ok v2 st2 =>
          rw [hcr] at hrc
          try simp only [hcr]
          have hok2 : okPres st st2 := okPres_trans hs' hrc
          by_cases hmn : st2.mNil
          · simp only [if_pos hmn]
            exact ResInv_of_okPres hok2 (ResInv_panicked_of_trapFree hok2.1 rfl rfl)
          · simp only [if_neg hmn]
            have hd := runUData_inv (info.dataPhase st2.hasColOps false) st2 hok2.1
            cases hcd : runUData (info.dataPhase st2.hasColOps false) st2 with
            | panicked m st3 =>
              rw [hcd] at hd
              try simp only [hcd]
              exact ResInv_of_okPres hok2 hd
            | ok v3 st3 =>
              rw [hcd] at hd
              try simp only [hcd]
              have hok3 : okPres st st3 := okPres_trans hok2 hd
              obtain ⟨cnt, verr⟩ := v3
              cases verr with
              | some e => exact hok3
              | none =>
                have hro := removeOld_inv st3 hok3.1
                cases hcro : removeOldRenameColumns st3 with
                | panicked m st4 =>
                  rw [hcro] at hro
                  try simp only [hcro]
                  exact ResInv_of_okPres hok3 hro
                | ok v4 st4 =>
                  rw [hcro] at hro
                  try simp only [hcro]
                  have hok4 : okPres st st4 := okPres_trans hok3 hro
                  cases v4 with
                  | some e => exact hok4
                  | none => exact hok4
theorem runErrExit_inv (e : String) (st : St) (h : TrapFree st) :
    ResInv st (runErrExit e st) := by
  unfold runErrExit
  have hr := migRollback_nmc st
  cases hc : migRollback st with
  | panicked m st' =>
    rw [hc] at hr
    try simp only [hc]
    exact ResInv_of_noMapChange h hr
  | ok u st' =>
    rw [hc] at hr
    try simp only [hc]
    have hok : okPres st st' := okPres_of_noMapChange h hr
    have hcl := schemaClose_nmc st'
    cases hc2 : schemaClose st' with
    | panicked m st2 =>
      rw [hc2] at hcl
      try simp only [hc2]
      exact ResInv_of_okPres hok (ResInv_of_noMapChange hok.1 hcl)
    | ok u2 st2 =>
      rw [hc2] at hcl
      try simp only [hc2]
      exact okPres_trans hok (okPres_of_noMapChange hok.1 hcl)

theorem runLoopFwdAux_inv (info : List UStep) (n : Nat) (i : Nat) (st : St) (h : TrapFree st) :
    ResInv st (runLoopFwdAux info n i st) := by
  induction n generalizing i st with
  | zero => exact ⟨h, rfl, rfl⟩
  | succ n ih =>
    unfold runLoopFwdAux
    cases hg : info.get? i with
    | none =>
      try simp only [hg]
      exact ResInv_panicked_of_trapFree h rfl rfl
    | some step =>
      try simp only [hg]
      have hm := migrate_inv step false st h
      cases hc : migrate step false st with
      | panicked m st' =>
        rw [hc] at hm
        try simp only [hc]
        exact hm
      | ok v st' =>
        rw [hc] at hm
        try simp only [hc]
        cases v with
        | some e => exact ResInv_of_okPres hm (runErrExit_inv e st' hm.1)
        | none => exact ResInv_of_okPres hm (ih (i + 1) st' hm.1)

theorem runLoopRevAux_inv (info : List UStep) (n : Nat) (i : Nat) (st : St) (h : TrapFree st) :
    ResInv st (runLoopRevAux info n i st) := by
  induction n generalizing i st with
  | zero => exact ⟨h, rfl, rfl⟩
  | succ n ih =>
    unfold runLoopRevAux
    cases hg : info.get? i with
    | none =>
      try simp only [hg]
      exact ResInv_panicked_of_trapFree h rfl rfl
    | some step =>
      try simp only [hg]
      have hm := migrate_inv step true st h
      cases hc : migrate step true st with
      | panicked m st' =>
        rw [hc] at hm
        try simp only [hc]
        exact hm
      | ok v st' =>
        rw [hc] at hm
        try simp only [hc]
        cases v with
        | some e => exact ResInv_of_okPres hm (runErrExit_inv e st' hm.1)
        | none => exact ResInv_of_okPres hm (ih (i - 1) st' hm.1)

theorem recoverHandler_spec (x : String) (st0 st : St)
    (h1 : TrapFree (untrapColumns st)) (h2 : (untrapColumns st).glob = st0.glob)
    (h3 : commitCount st.trace = commitCount st0.trace) :
    (∀ r st', recoverHandler x st = Res.ok r st' →
        r = some x ∧ TrapFree st' ∧ st'.glob = st0.glob ∧
          commitCount st'.trace = commitCount st0.trace) ∧
    (∀ m st', recoverHandler x st = Res.panicked m st' →
        TrapFree st' ∧ st'.glob = st0.glob ∧
          commitCount st'.trace = commitCount st0.trace) := by
  have hok : okPres st0 (untrapColumns st) :=
    ⟨h1, h2, by rw [untrap_trace]; exact h3⟩
  unfold recoverHandler
  have hr := migRollback_nmc (untrapColumns st)
  cases hc : migRollback (untrapColumns st) with
  | panicked m st' =>
    rw [hc] at hr
    try simp only [hc]
    have hp : okPres st0 st' :=
      ⟨⟨hr.1.trans h1.1, hr.2.1.trans h1.2⟩, hr.2.2.1.trans hok.2.1, hr.2.2.2.trans hok.2.2⟩
    constructor
    · intro r st2 hr2
      exact absurd hr2 (by intro hh; exact Res.noConfusion hh)
    · intro m2 st2 hr2
      injection hr2 with e1 e2
      subst e1
      subst e2
      exact ⟨hp.1, hp.2.1, hp.2.2⟩
  | ok u st' =>
    rw [hc] at hr
    try simp only [hc]
    have hok2 : okPres st0 st' := okPres_trans hok (okPres_of_noMapChange hok.1 hr)
    have hcl := schemaClose_nmc st'
    cases hc2 : schemaClose st' with
    | panicked m st2 =>
      rw [hc2] at hcl
      try simp only [hc2]
      have hp : okPres st0 st2 :=
        ⟨⟨hcl.1.trans hok2.1.1, hcl.2.1.trans hok2.1.2⟩, hcl.2.2.1.trans hok2.2.1,
          hcl.2.2.2.trans hok2.2.2⟩
      constructor
      · intro r st3 hr3
        exact absurd hr3 (by intro hh; exact Res.noConfusion hh)
      · intro m2 st3 hr3
        injection hr3 with e1 e2
        subst e1
        subst e2
        exact ⟨hp.1, hp.2.1, hp.2.2⟩
    | ok u2 st2 =>
      rw [hc2] at hcl
      try simp only [hc2]
      have hp : okPres st0 st2 := okPres_trans hok2 (okPres_of_noMapChange hok2.1 hcl)
      constructor
      · intro r st3 hr3
        injection hr3 with e1 e2
        subst e1
        subst e2
        exact ⟨rfl, hp.1, hp.2.1, hp.2.2⟩
      · intro m2 st3 hr3
        exact absurd hr3 (by intro hh; exact Res.noConfusion hh)
theorem migCommit_spec (st : St) :
    (∀ u st', migCommit st = Res.ok u st' →
        st'.oldFieldNameToColumnName = st.oldFieldNameToColumnName ∧
        st'.oldColumnNameToFieldName = st.oldColumnNameToFieldName ∧
        st'.glob = st.glob ∧ commitCount st'.trace = commitCount st.trace + 1) ∧
    (∀ m st', migCommit st = Res.panicked m st' →
        st'.oldFieldNameToColumnName = st.oldFieldNameToColumnName ∧
        st'.oldColumnNameToFieldName = st.oldColumnNameToFieldName ∧
        st'.glob = st.glob ∧ commitCount st'.trace = commitCount st.trace) := by
  unfold migCommit
  split
  · constructor
    · intro u st' hr
      exact absurd hr (fun hh => Res.noConfusion hh)
    · intro m st' hr
      injection hr with e1 e2
      subst e2
      exact ⟨rfl, rfl, rfl, rfl⟩
  · split
    · constructor
      · intro u st' hr
        exact absurd hr (fun hh => Res.noConfusion hh)
      · intro m st' hr
        injection hr with e1 e2
        subst e2
        exact ⟨rfl, rfl, rfl, rfl⟩
    · rcases he : st.env with _ | ⟨r, rest⟩
      · simp only [popEnv, he]
        constructor
        · intro u st' hr
          injection hr with e1 e2
          subst e2
          exact ⟨rfl, rfl, rfl, by simp [emit, commitCount_append]⟩
        · intro m st' hr
          exact absurd hr (fun hh => Res.noConfusion hh)
      · cases r with
        | ok =>
          simp only [popEnv, he]
          constructor
          · intro u st' hr
            injection hr with e1 e2
            subst e2
            exact ⟨rfl, rfl, rfl, by simp [emit, commitCount_append]⟩
          · intro m st' hr
            exact absurd hr (fun hh => Res.noConfusion hh)
        | fail m0 =>
          simp only [popEnv, he]
          constructor
          · intro u st' hr
            exact absurd hr (fun hh => Res.noConfusion hh)
          · intro m st' hr
            injection hr with e1 e2
            subst e2
            exact ⟨rfl, rfl, rfl, rfl⟩
        | hardFail m0 =>
          simp only [popEnv, he]
          constructor
          · intro u st' hr
            exact absurd hr (fun hh => Res.noConfusion hh)
          · intro m st' hr
            injection hr with e1 e2
            subst e2
            exact ⟨rfl, rfl, rfl, rfl⟩
theorem schemaRun_spec (info : List UStep) (f t : Nat) (st : St) (h : TrapFree st) :
    (∀ r st', schemaRun info f t st = Res.ok r st' →
        TrapFree st' ∧ st'.glob = st.glob ∧
          commitCount st'.trace =
            commitCount st.trace + (if r = none ∧ ¬f = t then 1 else 0)) ∧
    (∀ m st', schemaRun info f t st = Res.panicked m st' →
        TrapFree st' ∧ st'.glob = st.glob ∧
          commitCount st'.trace = commitCount st.trace) := by
  unfold schemaRun
  by_cases hft : f = t
  · simp only [if_pos hft]
    constructor
    · intro r st' hr
      injection hr with e1 e2
      subst e1
      subst e2
      refine ⟨h, rfl, ?_⟩
      simp [hft]
    · intro m st' hr
      exact absurd hr (fun hh => Res.noConfusion hh)
  · simp only [if_neg hft]
    have hb := migBegin_nmc st
    cases hcb : migBegin st with
    | panicked m st1 =>
      rw [hcb] at hb
      try simp only [hcb]
      constructor
      · intro r st' hr
        exact absurd hr (fun hh => Res.noConfusion hh)
      · intro m2 st' hr
        injection hr with e1 e2
        subst e2
        exact ⟨⟨hb.1.trans h.1, hb.2.1.trans h.2⟩, hb.2.2.1, hb.2.2.2⟩
    | ok u st1 =>
      rw [hcb] at hb
      try simp only [hcb]
      have hok1 : okPres st st1 := okPres_of_noMapChange h hb
      have hloop : ResInv st1
          (if f < t then runLoopFwd info f t st1 else runLoopRev info (f - 1) t st1) := by
        by_cases hlt : f < t
        · simp only [if_pos hlt]
          unfold runLoopFwd
          exact runLoopFwdAux_inv info (t - f) f st1 hok1.1
        · simp only [if_neg hlt]
          unfold runLoopRev
          exact runLoopRevAux_inv info (f - 1 + 1 - t) (f - 1) st1 hok1.1
      cases hcl : (if f < t then runLoopFwd info f t st1 else runLoopRev info (f - 1) t st1) with
      | panicked m st2 =>
        rw [hcl] at hloop
        try simp only [hcl]
        have hrec := recoverHandler_spec m st st2 hloop.1 (hloop.2.1.trans hok1.2.1)
          (hloop.2.2.trans hok1.2.2)
        constructor
        · intro r st' hr
          obtain ⟨hre, hf1, hf2, hf3⟩ := hrec.1 r st' hr
          subst hre
          refine ⟨hf1, hf2, ?_⟩
          simp [hf3]
        · intro m2 st' hr
          exact hrec.2 m2 st' hr
      | ok v st2 =>
        rw [hcl] at hloop
        try simp only [hcl]
        have hok2 : okPres st st2 := okPres_trans hok1 hloop
        cases v with
        | some e =>
          constructor
          · intro r st' hr
            injection hr with e1 e2
            subst e1
            subst e2
            refine ⟨hok2.1, hok2.2.1, ?_⟩
            simp [hok2.2.2]
          · intro m st' hr
            exact absurd hr (fun hh => Res.noConfusion hh)
        | none =>
          have hcm := migCommit_spec st2
          cases hcc : migCommit st2 with
          | panicked m st3 =>
            try simp only [hcc]
            obtain ⟨e1, e2, e3, e4⟩ := hcm.2 m st3 hcc
            have hr3 : okPres st st3 :=
              ⟨⟨e1.trans hok2.1.1, e2.trans hok2.1.2⟩, e3.trans hok2.2.1, e4.trans hok2.2.2⟩
            have hrec := recoverHandler_spec m st st3
              (by rw [untrap_of_trapFree st3 hr3.1]; exact hr3.1)
              (by rw [untrap_of_trapFree st3 hr3.1]; exact hr3.2.1) hr3.2.2
            constructor
            · intro r st' hr
              obtain ⟨hre, hf1, hf2, hf3⟩ := hrec.1 r st' hr
              subst hre
              refine ⟨hf1, hf2, ?_⟩
              simp [hf3]
            · intro m2 st' hr
              exact hrec.2 m2 st' hr
          | ok u2 st3 =>
            try simp only [hcc]
            obtain ⟨e1, e2, e3, e4⟩ := hcm.1 u2 st3 hcc
            constructor
            · intro r st' hr
              injection hr with f1 f2
              subst f1
              subst f2
              refine ⟨⟨e1.trans hok2.1.1, e2.trans hok2.1.2⟩, e3.trans hok2.2.1, ?_⟩
              rw [e4, hok2.2.2]
              simp [hft]
            · intro m st' hr
              exact absurd hr (fun hh => Res.noConfusion hh)
/-- **C2**: for every step list and every pair `from < to` (and likewise
every reverse pair) such that all steps in the range succeed — that is,
`Run` returns nil after a real run — the driver commits exactly once;
on every other path (an error return, an escaping panic, or the
`from == to` no-op) it commits nothing. Stated as an exact commit-count
equation over the operation trace. -/
theorem run_commits_exactly_once_iff_success (info : List UStep) (f t : Nat) (st : St)
    (h : TrapFree st) :
    commitCount (Res.state (schemaRun info f t st)).trace =
      commitCount st.trace +
        (if Res.retVal (schemaRun info f t st) = some none ∧ ¬f = t then 1 else 0) := by
  have hs := schemaRun_spec info f t st h
  cases hc : schemaRun info f t st with
  | ok r st' =>
    have h3 := (hs.1 r st' hc).2.2
    simp only [Res.state, Res.retVal, Option.some.injEq]
    exact h3
  | panicked m st' =>
    have h3 := (hs.2 m st' hc).2.2
    simp only [Res.state, Res.retVal]
    simpa using h3

/-- Witness for **C2** at a concrete input: the one-step shape change
with an all-success oracle, starting from a fresh trap-free state. -/
theorem run_commits_exactly_once_iff_success_witness :
    TrapFree (initSt gBase [] false) ∧
      commitCount (Res.state (schemaRun
          [oneChangeStep "Article" (some article1Ptr) (some article2Ptr)] 0 1
          (initSt gBase [] false))).trace =
        commitCount (initSt gBase [] false).trace +
          (if Res.retVal (schemaRun
                [oneChangeStep "Article" (some article1Ptr) (some article2Ptr)] 0 1
                (initSt gBase [] false)) = some none ∧ ¬(0 : Nat) = 1 then 1 else 0) :=
  ⟨⟨rfl, rfl⟩,
    run_commits_exactly_once_iff_success
      [oneChangeStep "Article" (some article1Ptr) (some article2Ptr)] 0 1
      (initSt gBase [] false) ⟨rfl, rfl⟩⟩

/-- **C7**: whenever `Run` returns — on the success path as well as on
every error path and every panic-escape path — the process-wide mapping
functions `FieldNameToColumnName` and `ColumnNameToFieldName` equal
their pre-`Run` values, and no trap snapshot is left active: every trap
installed during create-table, `FindAll`, or `Save` was matched by an
untrap. -/
theorem run_restores_name_mappings (info : List UStep) (f t : Nat) (st : St)
    (h : TrapFree st) :
    (Res.state (schemaRun info f t st)).glob = st.glob ∧
      TrapFree (Res.state (schemaRun info f t st)) := by
  have hs := schemaRun_spec info f t st h
  cases hc : schemaRun info f t st with
  | ok r st' =>
    have h2 := hs.1 r st' hc
    simp only [Res.state]
    exact ⟨h2.2.1, h2.1⟩
  | panicked m st' =>
    have h2 := hs.2 m st' hc
    simp only [Res.state]
    exact ⟨h2.2.1, h2.1⟩

/-- Witness for **C7** at a concrete input: the run whose data phase
fails inside `Save`, starting from a fresh trap-free state. -/
theorem run_restores_name_mappings_witness :
    TrapFree (initSt gBase saveFailEnv false) ∧
      (Res.state (schemaRun [saveErrStep] 0 1 (initSt gBase saveFailEnv false))).glob =
        (initSt gBase saveFailEnv false).glob ∧
      TrapFree (Res.state (schemaRun [saveErrStep] 0 1 (initSt gBase saveFailEnv false))) :=
  ⟨⟨rfl, rfl⟩,
    run_restores_name_mappings [saveErrStep] 0 1 (initSt gBase saveFailEnv false) ⟨rfl, rfl⟩⟩
theorem runLoopFwdAux_eq_applySteps (info : List UStep) (n : Nat) :
    ∀ (i : Nat) (st : St),
      runLoopFwdAux info n i st = applySteps info false (List.range' i n) st := by
  induction n with
  | zero => intro i st; rfl
  | succ n ih =>
    intro i st
    rw [List.range'_succ]
    cases hg : info.get? i with
    | none => simp only [runLoopFwdAux, applySteps, hg]
    | some step =>
      cases hm : migrate step false st with
      | panicked m st' => simp only [runLoopFwdAux, applySteps, hg, hm]
      | ok v st' =>
        cases v with
        | some e => simp only [runLoopFwdAux, applySteps, hg, hm]
        | none =>
          simp only [runLoopFwdAux, applySteps, hg, hm]
          exact ih (i + 1) st'

theorem runLoopRevAux_eq_applySteps (info : List UStep) (n : Nat) :
    ∀ (i : Nat) (st : St), n ≤ i + 1 →
      runLoopRevAux info n i st = applySteps info true (List.range' (i + 1 - n) n).reverse st := by
  induction n with
  | zero => intro i st _; rfl
  | succ n ih =>
    intro i st hn
    have hrange : List.range' (i + 1 - (n + 1)) (n + 1) = List.range' (i - n) n ++ [i] := by
      have h1 : i + 1 - (n + 1) = i - n := by omega
      have h2 : i - n + 1 * n = i := by omega
      rw [h1, List.range'_concat, h2]
    rw [hrange, List.reverse_append, List.reverse_singleton, List.singleton_append]
    cases hg : info.get? i with
    | none => simp only [runLoopRevAux, applySteps, hg]
    | some step =>
      cases hm : migrate step true st with
      | panicked m st' => simp only [runLoopRevAux, applySteps, hg, hm]
      | ok v st' =>
        cases v with
        | some e => simp only [runLoopRevAux, applySteps, hg, hm]
        | none =>
          simp only [runLoopRevAux, applySteps, hg, hm]
          have hstart : List.range' (i - 1 + 1 - n) n = List.range' (i - n) n := by
            rcases Nat.eq_zero_or_pos n with h0 | h0
            · subst h0; rfl
            · have he : i - 1 + 1 - n = i - n := by omega
              rw [he]
          rw [ih (i - 1) st' (by omega), hstart]

/-- **C4**: `Run` is extensionally equal to the spec-worded driver
`schemaRunSpec`: when `from == to` it returns nil leaving the state
(and hence the database trace and transaction) untouched; when
`from < to` it applies `info[from], info[from+1], …, info[to-1]` in that
order with the reverse flag false; when `from > to` it applies
`info[from-1], info[from-2], …, info[to]` in that order with the
reverse flag true. -/
theorem run_applies_range_in_direction (info : List UStep) (f t : Nat) (st : St) :
    schemaRun info f t st = schemaRunSpec info f t st ∧
      schemaRun info f f st = Res.ok none st := by
  refine ⟨?_, by simp [schemaRun]⟩
  unfold schemaRun schemaRunSpec
  by_cases hft : f = t
  · simp [hft]
  · simp only [if_neg hft]
    cases hcb : migBegin st with
    | panicked m st1 => rfl
    | ok u st1 =>
      have hloop : (if f < t then runLoopFwd info f t st1 else runLoopRev info (f - 1) t st1)
          = (if f < t then applySteps info false (List.range' f (t - f)) st1
             else applySteps info true (List.range' t (f - t)).reverse st1) := by
        by_cases hlt : f < t
        · simp only [if_pos hlt]
          unfold runLoopFwd
          exact runLoopFwdAux_eq_applySteps info (t - f) f st1
        · simp only [if_neg hlt]
          unfold runLoopRev
          rw [runLoopRevAux_eq_applySteps info (f - 1 + 1 - t) (f - 1) st1 (by omega)]
          have h1 : f - 1 + 1 - t = f - t := by omega
          have h2 : f - 1 + 1 - (f - t) = t := by omega
          rw [h1, h2]
      exact congrArg (fun x =>
        match x with
        | Res.panicked m st => recoverHandler m st
        | Res.ok (some e) st => Res.ok (some e) st
        | Res.ok none st =>
          match migCommit st with
          | Res.panicked m st => recoverHandler m st
          | Res.ok _ st => Res.ok none st) hloop
/-- **C1** (the code contradicts the claim): when a step's `Data` error
comes from a failed `Save` — which has already rolled the transaction
back — `Run`'s own `Rollback` call panics on the nil transaction, and
the deferred recover handler's `Rollback` panics again, so the panic
escapes `Run`: the error is not returned unchanged, the rollback
happened once (inside `Save`) rather than under `Run`'s control, and
`Close` is never invoked. -/
theorem save_error_escapes_run_as_rollback_panic :
    Res.panicMsg saveErrRun = some "no transaction in progress, cannot rollback!" ∧
      rollbackCount (Res.state saveErrRun).trace = 1 ∧
      Res.retVal saveErrRun = none ∧
      Op.closeHandle ∉ (Res.state saveErrRun).trace := by
  refine ⟨rfl, rfl, rfl, ?_⟩
  decide

/-- **C3** (the code contradicts the claim): a step whose `Data` phase
panics after a failed `Save` (whose internal rollback already consumed
the transaction) does not have its panic converted to an error: the
recover handler's own `Rollback` panics on the nil transaction and the
panic propagates out of `Run`, which therefore never returns. -/
theorem step_panic_after_inner_rollback_escapes_run :
    Res.panicMsg savePanicRun = some "no transaction in progress, cannot rollback!" ∧
      Res.retVal savePanicRun = none := ⟨rfl, rfl⟩

/-- **C5** counterexample: in the forward shape change
`Article_migration1 → Article_migration2`, the only table-creation the
engine issues targets `article_migration2` — the physical name of the
versioned record type, not the canonical `physical("Article") =
"article"` — and finalization then issues a further rename
`article_migration2 → article` for that logical name. -/
theorem shape_change_creates_under_versioned_name :
    List.filter isCreateOp (Res.state shapeChangeRun).trace =
        [Op.createTable "article_migration2" ["ContentOLD"]] ∧
      ¬ "article_migration2" = structNameToTableName "Article" ∧
      Op.renameTable "article_migration2" "article" ∈ (Res.state shapeChangeRun).trace ∧
      Res.retVal shapeChangeRun = some none := by
  refine ⟨rfl, by decide, by decide, rfl⟩

/-- **C5** (amended): for a logical name registered in both `prev` and
`curr`, the fresh new-shape table is created (under the column-name
trap, omitting `OLD`-suffixed fields) under the physical name of the
current record type, `physical(curr.typeName)`; after `Data` succeeds,
finalization drops the retired table held under `physical(prev.typeName)`
and then renames `physical(curr.typeName)` to the canonical
`physical(logical)`. -/
theorem shape_change_trace_amended (L p c : String) (pf cf : List String) (tp tc : Nat)
    (g : Globals) :
    Res.retVal (schemaRun [oneChangeStep L (some (GoVal.vPtr (GoVal.vStruct p pf tp)))
        (some (GoVal.vPtr (GoVal.vStruct c cf tc)))] 0 1 (initSt g [] false)) = some none ∧
      (Res.state (schemaRun [oneChangeStep L (some (GoVal.vPtr (GoVal.vStruct p pf tp)))
          (some (GoVal.vPtr (GoVal.vStruct c cf tc)))] 0 1 (initSt g [] false))).trace =
        [Op.beginTx,
         Op.renameTable (structNameToTableName L) (structNameToTableName p),
         Op.createTable (structNameToTableName c)
           (List.filter (fun fname => List.isSuffixOf "OLD".data fname.data) cf),
         Op.dropTable (structNameToTableName p),
         Op.renameTable (structNameToTableName c) (structNameToTableName L),
         Op.commitTx] := ⟨rfl, rfl⟩

/-- **C6** counterexample: for a logical name registered only in `prev`
(a pure drop), the rename/shadow phase does issue a rename — the full
trace of the forward pure-drop run is begin, rename
`article → article_migration1`, drop `article_migration1`, commit — so
the old table is not dropped unrenamed. -/
theorem pure_drop_issues_rename :
    (Res.state pureDropRun).trace =
        [Op.beginTx, Op.renameTable "article" "article_migration1",
         Op.dropTable "article_migration1", Op.commitTx] ∧
      Op.renameTable "article" "article_migration1" ∈ (Res.state pureDropRun).trace ∧
      Res.retVal pureDropRun = some none := by
  refine ⟨rfl, by decide, rfl⟩

/-- **C6** (amended): for a logical name registered only in `prev`, the
rename/shadow phase renames its physical table from `physical(logical)`
to `physical(prev.typeName)` (the loop over `prev` carries no
in-both-registries condition), and finalization then drops the table
under `physical(prev.typeName)`; no new table is created and no further
rename is issued. -/
theorem pure_drop_trace_amended (L p : String) (pf : List String) (tp : Nat) (g : Globals) :
    Res.retVal (schemaRun [oneChangeStep L (some (GoVal.vPtr (GoVal.vStruct p pf tp))) none]
        0 1 (initSt g [] false)) = some none ∧
      (Res.state (schemaRun [oneChangeStep L (some (GoVal.vPtr (GoVal.vStruct p pf tp))) none]
          0 1 (initSt g [] false))).trace =
        [Op.beginTx,
         Op.renameTable (structNameToTableName L) (structNameToTableName p),
         Op.dropTable (structNameToTableName p),
         Op.commitTx] := ⟨rfl, rfl⟩

/-- **C8** counterexample: a run whose `Data` phase calls
`FindAll("Article")` with the `prev` registry holding the
format-violating shape `Bogus` (no `_migration` infix) succeeds: the
engine issues the select against table `bogus` and `Run` returns nil,
so `FindAll` enforces no name format and does not stop before database
access. -/
theorem findAll_accepts_format_violating_shape :
    Res.retVal findAllBogusRun = some none ∧
      Op.findAllQuery "bogus" ∈ (Res.state findAllBogusRun).trace := by
  refine ⟨rfl, by decide⟩
/-- **C8** (amended): only `Save` enforces the
`<logical>_migration<integer>` name format: any `checkLogicalName`
failure panics `Save` before it touches the database (the state,
including the trace, is unchanged). `FindAll` performs no format check
at all: with any registered `prev` shape, whatever its type name, it
proceeds straight to the select, returning normally with the query
issued and the mappings restored. -/
theorem save_checks_name_format_findAll_does_not :
    (∀ (L : String) (rec : GoVal) (st : St) (m : String),
        checkLogicalName L rec = PanicOr.panicked m →
        schemaSave L rec st = Res.panicked m st) ∧
    (∀ (L n : String) (fs : List String) (tg : Nat) (st : St) (rest : List DbRes),
        TrapFree st → st.mNil = false → st.txOpen = true →
        lookupA st.prev L = some ⟨n, GoVal.vPtr (GoVal.vStruct n fs tg)⟩ →
        st.env = DbRes.ok :: rest →
        Res.retVal (schemaFindAll L st) = some (Except.ok ()) ∧
        (Res.state (schemaFindAll L st)).trace =
          st.trace ++ [Op.findAllQuery (structNameToTableName n)] ∧
        (Res.state (schemaFindAll L st)).glob = st.glob) := by
  constructor
  · intro L rec st m h
    simp only [schemaSave, h]
  · intro L n fs tg st rest hTF hmn htx hl henv
    unfold schemaFindAll getQbsSameTransaction
    simp only [hmn, htx, Bool.false_eq_true, Bool.not_true, if_false]
    simp only [hl]
    simp only [popEnv, emit, trapColumns, henv]
    refine ⟨rfl, ?_, ?_⟩
    · simp only [Res.state]
      rw [untrap_trace]
    · simp only [Res.state]
      rw [untrap_fields _ rfl rfl]

/-- Witness for **C8**: `Save` under logical `"Article"` with the
`Bogus` shape panics with the format diagnostic on an untouched state,
and `FindAll` on `bogusFindSt` returns normally. -/
theorem save_checks_name_format_findAll_does_not_witness :
    checkLogicalName "Article" bogusPtr =
        PanicOr.panicked "can't understand logical name Article with struct Bogus" ∧
      schemaSave "Article" bogusPtr (initSt gBase [] false) =
        Res.panicked "can't understand logical name Article with struct Bogus"
          (initSt gBase [] false) ∧
      Res.retVal (schemaFindAll "Article" bogusFindSt) = some (Except.ok ()) :=
  ⟨by rfl,
   save_checks_name_format_findAll_does_not.1 "Article" bogusPtr
     (initSt gBase [] false) _ (by rfl),
   (save_checks_name_format_findAll_does_not.2 "Article" "Bogus" ["Id"] 3 bogusFindSt []
     ⟨rfl, rfl⟩ rfl rfl rfl rfl).1⟩

/-- **C9**: the record introspector, given a reference to a sequence of
references to records, uses the first element as the prototype when the
sequence is non-empty, and synthesizes a fresh zero-valued record of
the element type when it is empty; in both cases the returned type name
is the element record type's unqualified name. -/
theorem structPair_slice_introspection (n : String) (fs : List String) (tag : Nat)
    (rest : List GoVal) :
    structPair (GoVal.vPtr (GoVal.vSlice (GoTy.tPtr (GoTy.tStruct n fs)) [])) =
        PanicOr.ok ⟨n, GoVal.vPtr (GoVal.vStruct n fs 0)⟩ ∧
      structPair (GoVal.vPtr (GoVal.vSlice (GoTy.tPtr (GoTy.tStruct n fs))
          (GoVal.vPtr (GoVal.vStruct n fs tag) :: rest))) =
        PanicOr.ok ⟨n, GoVal.vPtr (GoVal.vStruct n fs tag)⟩ := ⟨rfl, rfl⟩

/-- **C10**: when `checkLogicalName` (and hence `Save`) receives a
record whose type name contains no `"_migration"` infix but equals the
logical name exactly, the split yields a single piece, the left-piece
equality test passes, and the access to `pieces[1]` indexes past the
end of the one-element result — a runtime range panic instead of either
format diagnostic. -/
theorem checkLogicalName_index_out_of_range (L : String) (fs : List String) (tag : Nat)
    (h : splitFirst L.data "_migration".data = none) :
    checkLogicalName L (GoVal.vPtr (GoVal.vStruct L fs tag)) =
        PanicOr.panicked indexOutOfRangeMsg ∧
      ∀ st : St, schemaSave L (GoVal.vPtr (GoVal.vStruct L fs tag)) st =
        Res.panicked indexOutOfRangeMsg st := by
  have hck : checkLogicalName L (GoVal.vPtr (GoVal.vStruct L fs tag)) =
      PanicOr.panicked indexOutOfRangeMsg := by
    simp only [checkLogicalName, structPair, splitN2, h]
    simp
  exact ⟨hck, fun st => by simp only [schemaSave, hck]⟩

/-- Witness for **C10**: the logical name `"Article"` with a record
shape also named `Article`. -/
theorem checkLogicalName_index_out_of_range_witness :
    splitFirst "Article".data "_migration".data = none ∧
      checkLogicalName "Article" (GoVal.vPtr (GoVal.vStruct "Article" ["Id"] 0)) =
        PanicOr.panicked indexOutOfRangeMsg :=
  ⟨by decide,
   (checkLogicalName_index_out_of_range "Article" ["Id"] 0 (by decide)).1⟩
